import Mathlib

/-!
# Verification of the newsletter-narrator core (src/index.js)

This file gives a shallow embedding, in Lean 4, of the content-reduction and
dialogue-synthesis pipeline of the `newsletter-narrator` repository
(`src/index.js`), and proves properties of that embedding.

Modelling conventions:
* JavaScript strings are Lean `String`s (lists of characters); the two regular
  expressions used by the code, `/CATEGORY:\s*([A-Z_]+)/i` and
  `/SUMMARY:\s*([\s\S]+)/i`, are embedded as explicit left-to-right scanners
  with the same backtracking behaviour as the JS engine on those patterns.
* The `gpt-tokenizer` dependency is abstracted by an arbitrary pair of
  functions `encode : String → List Nat` and `decode : List Nat → String`.
* The OpenAI chat endpoint is abstracted by an oracle
  `model : String → String → String` taking the system prompt and the user
  content and returning the response text (the JS code always uses the model
  name "gpt-4o-mini", temperature 0.7 and max_tokens 750, so these constant
  fields are not represented).
* The text-to-speech service is abstracted by `tts : TTSRequest → String`
  returning the audio bytes for one request; the filesystem is represented by
  the list of `(path, bytes)` pairs written, and the ffmpeg concat invocation
  by an external outcome `mux : Except String Unit` together with a per-file
  deletion oracle `unlinkOk : String → Bool`.
-/

namespace NewsletterNarrator

/-- The fixed category list `TOPIC_CATEGORIES` (src/index.js lines 16–24). -/
def TOPIC_CATEGORIES : List String :=
  ["TECH_NEWS", "BUSINESS", "SECURITY", "PRODUCT_UPDATES",
   "INDUSTRY_NEWS", "EDUCATIONAL", "OTHER"]

/-- Result of summarising one newsletter: the `{topic, summary}` object
returned by `summarizeNewsletter` / `processSingleChunk`. -/
structure CategoryResult where
  topic : String
  summary : String
deriving DecidableEq, Repr

/-- The character class `\s` of JavaScript regular expressions
(whitespace and line terminators), by code point. -/
def isSpace (c : Char) : Bool :=
  c.toNat = 32 || (9 ≤ c.toNat && c.toNat ≤ 13) || c.toNat = 0xa0 ||
  c.toNat = 0x1680 || (0x2000 ≤ c.toNat && c.toNat ≤ 0x200a) ||
  c.toNat = 0x2028 || c.toNat = 0x2029 || c.toNat = 0x202f ||
  c.toNat = 0x205f || c.toNat = 0x3000 || c.toNat = 0xfeff

/-- The character class `[A-Z_]` under the `i` flag: an ASCII letter of either
case, or an underscore. -/
def isCatChar (c : Char) : Bool :=
  c.toNat = 95 || (65 ≤ c.toNat && c.toNat ≤ 90) || (97 ≤ c.toNat && c.toNat ≤ 122)

/-- ASCII lower-casing of one character, as JS case-insensitive matching
folds the ASCII letters appearing in the two markers. -/
def jsToLowerChar (c : Char) : Char :=
  if 65 ≤ c.toNat && c.toNat ≤ 90 then Char.ofNat (c.toNat + 32) else c

/-- ASCII upper-casing of one character, as JS `toUpperCase` acts on the
characters matched by `[A-Z_]+` (ASCII letters and underscore). -/
def jsToUpperChar (c : Char) : Char :=
  if 97 ≤ c.toNat && c.toNat ≤ 122 then Char.ofNat (c.toNat - 32) else c

/-- JS `String.prototype.toUpperCase`, restricted to the ASCII mapping. -/
def jsToUpper (cs : List Char) : List Char :=
  cs.map jsToUpperChar

/-- JS `String.prototype.trim`: strip `\s` characters from both ends. -/
def jsTrim (cs : List Char) : List Char :=
  ((cs.dropWhile isSpace).reverse.dropWhile isSpace).reverse

/-- Case-insensitive literal-prefix test, one character of the pattern at a
time, as the regex engine matches the literal `CATEGORY:` / `SUMMARY:`. -/
def startsWithCI : List Char → List Char → Bool
  | [], _ => true
  | _ :: _, [] => false
  | p :: ps, c :: cs => (jsToLowerChar p == jsToLowerChar c) && startsWithCI ps cs

/-- Case-insensitive substring test: the literal pattern matches at some
start position of the text. -/
def containsCI (pat : List Char) : List Char → Bool
  | [] => startsWithCI pat []
  | c :: cs => startsWithCI pat (c :: cs) || containsCI pat cs

/-- The literal `CATEGORY:` of the category regex. -/
def catMarker : List Char := "CATEGORY:".data

/-- The literal `SUMMARY:` of the summary regex. -/
def sumMarker : List Char := "SUMMARY:".data

/-- Continuation of `/CATEGORY:\s*([A-Z_]+)/i` after the literal marker:
`\s*` is greedy, and `[A-Z_]+` must then match at least one character
(backtracking into `\s*` cannot help, since no `\s` character is in
`[A-Z_]`). Returns the captured group. -/
def matchCategoryTail (cs : List Char) : Option (List Char) :=
  let tok := (cs.dropWhile isSpace).takeWhile isCatChar
  if tok = [] then none else some tok

/-- Continuation of `/SUMMARY:\s*([\s\S]+)/i` after the literal marker:
`\s*` is greedy, but `[\s\S]+` accepts any character, so when the remaining
text is pure whitespace the engine backtracks `\s*` by one character and the
capture is the final character; the match fails only when no character at
all follows the marker. Returns the captured group. -/
def matchSummaryTail : List Char → Option (List Char)
  | [] => none
  | c :: cs =>
    let rest := (c :: cs).dropWhile isSpace
    if rest = [] then some [(c :: cs).getLast (by simp)] else some rest

/-- Left-to-right scan of `result.match(/CATEGORY:\s*([A-Z_]+)/i)`: at each
start position try the literal marker and its tail; on failure advance one
position. Returns the captured group of the first successful match. -/
def findCategoryMatch : List Char → Option (List Char)
  | [] => none
  | c :: cs =>
    if startsWithCI catMarker (c :: cs) then
      match matchCategoryTail ((c :: cs).drop catMarker.length) with
      | some tok => some tok
      | none => findCategoryMatch cs
    else findCategoryMatch cs

/-- Left-to-right scan of `result.match(/SUMMARY:\s*([\s\S]+)/i)`. -/
def findSummaryMatch : List Char → Option (List Char)
  | [] => none
  | c :: cs =>
    if startsWithCI sumMarker (c :: cs) then
      match matchSummaryTail ((c :: cs).drop sumMarker.length) with
      | some cap => some cap
      | none => findSummaryMatch cs
    else findSummaryMatch cs

/-- Parsing of one model response into `{topic, summary}`, as done inline at
src/index.js lines 318–325 (and identically at lines 279–283):
`topic` is the trimmed, upper-cased capture when the category regex matches and the fallback `OTHER` otherwise;
`summary = summaryMatch ? summaryMatch[1].trim() : result`. -/
def parseModelResponse (result : String) : CategoryResult :=
  let topic := match findCategoryMatch result.data with
    | some tok => String.mk (jsToUpper (jsTrim tok))
    | none => "OTHER"
  let summary := match findSummaryMatch result.data with
    | some cap => String.mk (jsTrim cap)
    | none => result
  ⟨topic, summary⟩

/-- The system prompt of `processSingleChunk` (src/index.js lines 305–307),
with the category list joined by comma-space as the source interpolates it. -/
def singleChunkSystemPrompt : String :=
  "Analyze and summarize the newsletter content. First determine the most relevant category from: "
    ++ String.intercalate ", " TOPIC_CATEGORIES
    ++ ". Then provide a concise summary focusing on key announcements and insights. Format the response as:\n          CATEGORY: [chosen category]\n          SUMMARY: [your summary]"

/-- The first-chunk system prompt of `summarizeNewsletter`
(src/index.js lines 255–257). -/
def firstChunkSystemPrompt : String :=
  "Analyze the first part of this newsletter content. Determine the most relevant category from: "
    ++ String.intercalate ", " TOPIC_CATEGORIES
    ++ " and begin summarizing key points. Format as:\n             CATEGORY: [chosen category]\n             SUMMARY: [your summary]"

/-- The continuation system prompt of `summarizeNewsletter`
(src/index.js lines 258–259), carrying the running summary as context. -/
def continuationSystemPrompt (isLastChunk : Bool) (finalSummary : String) : String :=
  "Continue analyzing the " ++ (if isLastChunk then "final" else "next")
    ++ " part of the newsletter. Incorporate this into the previous summary. Previous summary context:\n             "
    ++ finalSummary

/-- `processSingleChunk` (src/index.js lines 299–326): one model call on the
whole content, parsed into `{topic, summary}`. -/
def processSingleChunk (model : String → String → String) (content : String) :
    CategoryResult :=
  parseModelResponse (model singleChunkSystemPrompt content)

/-- The per-chunk token budget `maxTokensPerChunk` (src/index.js line 238). -/
def maxTokensPerChunk : Nat := 15000

/-- The chunk loop of `summarizeNewsletter` (src/index.js lines 248–287),
written as a recursion on the tokens not yet processed: the loop index `i`
of the source corresponds to `remaining = tokens.drop i`, so
`isFirstChunk ↔ isFirst`, `chunkTokens = remaining.take maxTokensPerChunk`,
and `isLastChunk = (i + maxTokensPerChunk ≥ tokens.length)
↔ remaining.length ≤ maxTokensPerChunk`. Returns the final
`(currentTopic, finalSummary)` pair. -/
def summarizeLoop (decode : List Nat → String) (model : String → String → String)
    (remaining : List Nat) (isFirst : Bool) (currentTopic finalSummary : String) :
    String × String :=
  if remaining = [] then (currentTopic, finalSummary)
  else
    let chunkContent := decode (remaining.take maxTokensPerChunk)
    let isLastChunk := remaining.length ≤ maxTokensPerChunk
    let systemPrompt := if isFirst then firstChunkSystemPrompt
      else continuationSystemPrompt isLastChunk finalSummary
    let result := model systemPrompt chunkContent
    if isFirst then
      let parsed := parseModelResponse result
      summarizeLoop decode model (remaining.drop maxTokensPerChunk) false
        parsed.topic parsed.summary
    else
      summarizeLoop decode model (remaining.drop maxTokensPerChunk) false
        currentTopic (finalSummary ++ "\n" ++ result)
termination_by remaining.length
decreasing_by
  all_goals
    simp only [List.length_drop]
    have hpos : 0 < remaining.length := List.length_pos.mpr (by assumption)
    simp only [maxTokensPerChunk]
    omega

/-- Responses returned by the model on the continuation chunks, in order,
threading the running summary through the continuation prompts exactly as
the chunk loop does. -/
def continuationResponses (decode : List Nat → String)
    (model : String → String → String) (remaining : List Nat)
    (finalSummary : String) : List String :=
  if remaining = [] then []
  else
    let result := model
      (continuationSystemPrompt (remaining.length ≤ maxTokensPerChunk) finalSummary)
      (decode (remaining.take maxTokensPerChunk))
    result :: continuationResponses decode model (remaining.drop maxTokensPerChunk)
      (finalSummary ++ "\n" ++ result)
termination_by remaining.length
decreasing_by
  all_goals
    simp only [List.length_drop]
    have hpos : 0 < remaining.length := List.length_pos.mpr (by assumption)
    simp only [maxTokensPerChunk]
    omega

/-- `summarizeNewsletter` (src/index.js lines 234–297): tokenize the content;
at most `maxTokensPerChunk` tokens delegates to `processSingleChunk` on the
original content, otherwise run the chunk loop starting from empty
`currentTopic` and `finalSummary`. -/
def summarizeNewsletter (encode : String → List Nat) (decode : List Nat → String)
    (model : String → String → String) (emailContent : String) : CategoryResult :=
  let tokens := encode emailContent
  if tokens.length ≤ maxTokensPerChunk then
    processSingleChunk model emailContent
  else
    let out := summarizeLoop decode model tokens true "" ""
    ⟨out.1, out.2⟩

/-- An email as consumed by the aggregation loop of `runEnhancedSummarizer`
(src/index.js lines 574–592): the `subject`, `from` and `date` fields are
carried into the summary item (the JS `from` field is named `sender` here,
`from` being a Lean keyword; the date is kept abstract as a string). -/
structure EmailRecord where
  id : String
  subject : String
  sender : String
  date : String
  body : String
deriving DecidableEq, Repr

/-- One entry pushed into a topic bucket
(src/index.js lines 584–589): `{subject, from, date, summary}`. -/
structure SummaryItem where
  subject : String
  sender : String
  date : String
  summary : String
deriving DecidableEq, Repr

/-- The `summariesByTopic` object: a JS object with string keys in insertion
order, modelled as an ordered association list; `Object.entries` enumerates
it in exactly this order. -/
abbrev Buckets := List (String × List SummaryItem)

/-- The pre-initialization of `summariesByTopic`
(src/index.js lines 570–572): every known category maps to an empty list,
in `TOPIC_CATEGORIES` order. -/
def initBuckets : Buckets := TOPIC_CATEGORIES.map (fun topic => (topic, []))

/-- The statement `summariesByTopic[topic].push(item)`
(src/index.js lines 584–589): append to the list held at key `topic`;
`none` models the TypeError thrown when the key is absent
(`summariesByTopic[topic]` is `undefined`). -/
def bucketPush : Buckets → String → SummaryItem → Option Buckets
  | [], _, _ => none
  | (k, items) :: rest, topic, item =>
    if k = topic then some ((k, items ++ [item]) :: rest)
    else (bucketPush rest topic item).map (fun b => (k, items) :: b)

/-- The summary item built from an email and its summarization result
(src/index.js lines 584–589). -/
def itemOf (email : EmailRecord) (r : CategoryResult) : SummaryItem :=
  ⟨email.subject, email.sender, email.date, r.summary⟩

/-- The aggregation loop of `runEnhancedSummarizer` starting from a given
bucket state: each `(email, result)` pair is pushed into the bucket named by
its topic, in input order. -/
def aggregateFrom (b : Buckets) : List (EmailRecord × CategoryResult) → Option Buckets
  | [] => some b
  | (email, r) :: rest =>
    match bucketPush b r.topic (itemOf email r) with
    | none => none
    | some b2 => aggregateFrom b2 rest

/-- The whole aggregation of `runEnhancedSummarizer`
(src/index.js lines 568–592): initialize every known category to an empty
bucket, then push each pair in order. -/
def aggregate (inputs : List (EmailRecord × CategoryResult)) : Option Buckets :=
  aggregateFrom initBuckets inputs

/-- One line of the two-speaker script (src/index.js `createSpeechScript`):
a speaker tag (`"host"` or `"guest"`) and the text to speak. -/
structure ScriptLine where
  speaker : String
  text : String
deriving DecidableEq, Repr

/-- State machine for `summary.split(/(?<=\.)\s+/)`: walk the characters
left to right; `inSep` means the scan is inside a separator run of `\s+`
characters, and `prevDot` records whether the previous character was a
period (the lookbehind). A split begins exactly at a whitespace character
whose predecessor is a period; the separator run is maximal. A run that
reaches the end of the string leaves a trailing empty part, as JS does. -/
def splitGo (inSep prevDot : Bool) (acc : List Char) : List Char → List (List Char)
  | [] => [acc.reverse]
  | c :: cs =>
    if inSep then
      if isSpace c then splitGo true false acc cs
      else splitGo false (c == '.') (c :: acc) cs
    else if prevDot && isSpace c then
      acc.reverse :: splitGo true false [] cs
    else splitGo false (c == '.') (c :: acc) cs

/-- JS `summary.split(/(?<=\.)\s+/)` (src/index.js line 358). -/
def jsSplitDot (cs : List Char) : List (List Char) :=
  splitGo false false [] cs

/-- The script lines emitted for one bucket item by the `summaries.forEach`
body (src/index.js lines 357–383): one guest line with the sender and the
first sentence; when the summary has more than one part, a host follow-up
prompt and a guest line with the remaining parts joined by single spaces;
and, when the item is not the last of its bucket, a host line prompting for
further updates. -/
def itemLines (item : SummaryItem) (isLast : Bool) : List ScriptLine :=
  let summaryParts := (jsSplitDot item.summary.data).map (fun p => String.mk p)
  [⟨"guest", "From " ++ item.sender ++ ", we have " ++ summaryParts.headD ""⟩]
  ++ (if summaryParts.length > 1 then
        [⟨"host", "That\x27s interesting! What else did they mention?"⟩,
         ⟨"guest", String.intercalate " " (summaryParts.drop 1)⟩]
      else [])
  ++ (if isLast then [] else
        [⟨"host", "What other updates do we have in this area?"⟩])

/-- The `summaries.forEach((item, index) => ...)` loop over one bucket:
`index < summaries.length - 1` of the source becomes the `isLast` flag of
`itemLines`. -/
def bucketItemLines : List SummaryItem → List ScriptLine
  | [] => []
  | [item] => itemLines item true
  | item :: rest => itemLines item false ++ bucketItemLines rest

/-- The topic name rendering `topic.toLowerCase().replace(/_/g, ' ')`
(src/index.js line 350), with ASCII lower-casing. -/
def topicName (topic : String) : String :=
  String.mk ((topic.data.map jsToLowerChar).map (fun c => if c = '_' then ' ' else c))

/-- `createSpeechScript` (src/index.js lines 328–402): fixed opening lines,
then for every bucket with at least one item (in bucket enumeration order)
a host transition line followed by the item lines, then fixed closing
lines. The wall-clock `timeNow` of the source is a parameter. -/
def createSpeechScript (timeNow : String) (summariesByTopic : Buckets) :
    List ScriptLine :=
  [⟨"host", "Welcome to your daily newsletter roundup! It\x27s " ++ timeNow
      ++ ", and I\x27m here with our expert analyst to break down today\x27s key stories."⟩,
   ⟨"guest", "Thanks for having me! I\x27ve reviewed all the newsletters, and we\x27ve got some interesting developments to discuss."⟩]
  ++ (summariesByTopic.filter (fun p => p.2.length > 0)).flatMap
      (fun p =>
        ⟨"host", "Let\x27s dive into " ++ topicName p.1
            ++ ". What are the key updates in this area?"⟩
          :: bucketItemLines p.2)
  ++ [⟨"host", "That wraps up our newsletter summary for today. Any final thoughts?"⟩,
      ⟨"guest", "Thanks for breaking this down with me. Remember to check the email summary for more details on any stories that caught your interest."⟩,
      ⟨"host", "Thanks for listening, and we\x27ll catch you in the next summary!"⟩]

/-- One voice profile of `VOICE_CONFIGS` (src/index.js lines 26–37). -/
structure VoiceConfig where
  languageCode : String
  name : String
  ssmlGender : String
deriving DecidableEq, Repr

/-- The `VOICE_CONFIGS` lookup keyed by speaker role; speakers other than
`host` and `guest` have no profile (the JS lookup yields `undefined`). -/
def VOICE_CONFIGS (speaker : String) : Option VoiceConfig :=
  if speaker = "host" then some ⟨"en-US", "en-US-Neural2-D", "MALE"⟩
  else if speaker = "guest" then some ⟨"en-US", "en-US-Neural2-F", "FEMALE"⟩
  else none

/-- One text-to-speech request (src/index.js lines 418–426); the JS float
rates 1.1 / 1.0 and pitches 1 / 0.9 are represented as rationals. -/
structure TTSRequest where
  text : String
  voice : Option VoiceConfig
  audioEncoding : String
  speakingRate : ℚ
  pitch : ℚ
deriving DecidableEq, Repr

/-- The request built for one script line (src/index.js lines 417–426). -/
def ttsRequestFor (segment : ScriptLine) : TTSRequest :=
  ⟨segment.text, VOICE_CONFIGS segment.speaker, "MP3",
   if segment.speaker = "host" then 11/10 else 1,
   if segment.speaker = "host" then 1 else 9/10⟩

/-- The temporary segment file path
`path.join(audioDir, `segment_${index}.mp3`)` (src/index.js line 429). -/
def segmentPath (audioDir : String) (index : Nat) : String :=
  audioDir ++ "/segment_" ++ toString index ++ ".mp3"

/-- The synthesis loop of `generateAudioSummary`
(src/index.js lines 412–432): for each script line, in order, one TTS call
whose audio bytes are written to the indexed segment file. Returns the
ordered list of `(path, bytes)` pairs written; `audioPaths` of the source is
the list of first components. -/
def synthesizeSegments (tts : TTSRequest → String) (audioDir : String)
    (script : List ScriptLine) : List (String × String) :=
  script.enum.map (fun p => (segmentPath audioDir p.1, tts (ttsRequestFor p.2)))

/-- The cleanup loop run in the ffmpeg `end` handler
(src/index.js lines 451–457): try to unlink each segment file, in order;
returns the files actually deleted and the files whose deletion failed and
was only warned about. -/
def cleanupLoop (unlinkOk : String → Bool) : List String → List String × List String
  | [] => ([], [])
  | p :: ps =>
    let rest := cleanupLoop unlinkOk ps
    if unlinkOk p then (p :: rest.1, rest.2) else (rest.1, p :: rest.2)

/-- Outcome of the merge phase of `generateAudioSummary`: the value returned
or the error propagated, the segment files deleted, and the segment files
whose deletion merely produced a warning. -/
structure MergeOutcome where
  result : Except String String
  deletedFiles : List String
  warnings : List String
deriving Repr

/-- The ffmpeg concatenation promise of `generateAudioSummary`
(src/index.js lines 440–473) together with the surrounding try/catch: on
`end`, every segment file is unlinked (failures warn and continue) and the
final audio path is returned; on `error`, the rejection is rethrown by the
outer catch and no cleanup runs. The external success or failure of the
muxing process is the parameter `mux`. -/
def mergeSegments (mux : Except String Unit) (unlinkOk : String → Bool)
    (audioPaths : List String) (finalAudioPath : String) : MergeOutcome :=
  match mux with
  | .ok _ =>
    let cleaned := cleanupLoop unlinkOk audioPaths
    ⟨.ok finalAudioPath, cleaned.1, cleaned.2⟩
  | .error e => ⟨.error e, [], []⟩

/-- `generateAudioSummary` (src/index.js lines 404–482): compose the script,
synthesize one segment per line, then merge the segments in order. Returns
the merge outcome together with the segments written in the synthesis
phase. -/
def generateAudioSummary (tts : TTSRequest → String) (mux : Except String Unit)
    (unlinkOk : String → Bool) (audioDir finalAudioPath timeNow : String)
    (summariesByTopic : Buckets) : MergeOutcome × List (String × String) :=
  let speechScript := createSpeechScript timeNow summariesByTopic
  let segments := synthesizeSegments tts audioDir speechScript
  (mergeSegments mux unlinkOk (segments.map Prod.fst) finalAudioPath, segments)

/-! ## Helper lemmas -/

/-- Unfolding `Char.ofNat` below the surrogate range. -/
lemma char_toNat_ofNat_lt (n : Nat) (h : n < 55296) : (Char.ofNat n).toNat = n := by
  unfold Char.ofNat
  rw [dif_pos (Or.inl h)]
  rfl

/-- No character of the class `[A-Z_]` (case-insensitive) is a `\s`
character. -/
lemma isSpace_eq_false_of_isCatChar (c : Char) (h : isCatChar c = true) :
    isSpace c = false := by
  simp only [isCatChar, Bool.or_eq_true, Bool.and_eq_true, decide_eq_true_eq] at h
  rw [Bool.eq_false_iff]
  intro hs
  simp only [isSpace, Bool.or_eq_true, Bool.and_eq_true, decide_eq_true_eq] at hs
  omega

lemma dropWhile_isSpace_eq_self (cs : List Char)
    (h : ∀ c ∈ cs, isCatChar c = true) : cs.dropWhile isSpace = cs := by
  cases cs with
  | nil => rfl
  | cons c cs' =>
    rw [List.dropWhile_cons,
      isSpace_eq_false_of_isCatChar c (h c (List.mem_cons_self c cs'))]
    simp

/-- Trimming a token of `[A-Z_]` characters changes nothing. -/
lemma jsTrim_eq_self_of_catChars (cs : List Char)
    (h : ∀ c ∈ cs, isCatChar c = true) : jsTrim cs = cs := by
  unfold jsTrim
  rw [dropWhile_isSpace_eq_self cs h,
    dropWhile_isSpace_eq_self cs.reverse (fun c hc => h c (List.mem_reverse.mp hc))]
  exact List.reverse_reverse cs

/-- ASCII upper-casing sends a `[A-Z_]` character to an underscore or an
uppercase letter. -/
lemma jsToUpperChar_mem_range (c : Char) (h : isCatChar c = true) :
    ((jsToUpperChar c).toNat = 95
      || (65 ≤ (jsToUpperChar c).toNat && (jsToUpperChar c).toNat ≤ 90)) = true := by
  simp only [isCatChar, Bool.or_eq_true, Bool.and_eq_true, decide_eq_true_eq] at h
  simp only [jsToUpperChar]
  split
  case isTrue h2 =>
    simp only [Bool.and_eq_true, decide_eq_true_eq] at h2
    rw [char_toNat_ofNat_lt _ (by omega)]
    simp only [Bool.or_eq_true, Bool.and_eq_true, decide_eq_true_eq]
    omega
  case isFalse h2 =>
    simp only [Bool.and_eq_true, decide_eq_true_eq, not_and, not_le] at h2
    simp only [Bool.or_eq_true, Bool.and_eq_true, decide_eq_true_eq]
    omega

/-- A successful category match captures a nonempty token of `[A-Z_]`
characters. -/
lemma findCategoryMatch_some_spec (cs tok : List Char)
    (h : findCategoryMatch cs = some tok) :
    tok ≠ [] ∧ ∀ c ∈ tok, isCatChar c = true := by
  induction cs with
  | nil => simp [findCategoryMatch] at h
  | cons c cs ih =>
    rw [findCategoryMatch] at h
    split at h
    · cases hm : matchCategoryTail ((c :: cs).drop catMarker.length) with
      | none => simp only [hm] at h; exact ih h
      | some t =>
        simp only [hm] at h
        simp only [matchCategoryTail] at hm
        split at hm
        · cases hm
        · injection hm with hm
          injection h with h
          subst h
          subst hm
          refine ⟨by assumption, fun c hc => ?_⟩
          exact List.all_eq_true.mp List.all_takeWhile c hc
    · exact ih h

/-- When the text has no case-insensitive occurrence of `CATEGORY:`, the
category regex cannot match. -/
lemma findCategoryMatch_eq_none_of_not_containsCI (cs : List Char)
    (h : containsCI catMarker cs = false) : findCategoryMatch cs = none := by
  induction cs with
  | nil => rfl
  | cons c cs ih =>
    rw [containsCI] at h
    obtain ⟨h1, h2⟩ := Bool.or_eq_false_iff.mp h
    rw [findCategoryMatch, h1]
    simpa using ih h2

/-- When the text has no case-insensitive occurrence of `SUMMARY:`, the
summary regex cannot match. -/
lemma findSummaryMatch_eq_none_of_not_containsCI (cs : List Char)
    (h : containsCI sumMarker cs = false) : findSummaryMatch cs = none := by
  induction cs with
  | nil => rfl
  | cons c cs ih =>
    rw [containsCI] at h
    obtain ⟨h1, h2⟩ := Bool.or_eq_false_iff.mp h
    rw [findSummaryMatch, h1]
    simpa using ih h2

/-! ## Claim C1 -/

/-- C1 fails on the code: the parsed category token is not validated against
`TOPIC_CATEGORIES`. A model response announcing the category `SPORTS` makes
`processSingleChunk` return the topic `"SPORTS"`, which is not a member of
the known category set. -/
theorem claim1_counterexample :
    (processSingleChunk (fun _ _ => "CATEGORY: SPORTS\nSUMMARY: s") "body").topic
        = "SPORTS"
    ∧ "SPORTS" ∉ TOPIC_CATEGORIES := by
  exact ⟨by decide, by decide⟩

/-- C1 (amended): for every model response, the topic returned by
`summarizeNewsletter` and `processSingleChunk` (both parse via
`parseModelResponse`) is never null or empty — it is always a nonempty
string of uppercase ASCII letters and underscores — and a response whose
category token does not match maps to the fallback category `OTHER`; but a
matched token is returned as-is (uppercased) without being checked against
the known category set. -/
theorem claim1_amended (r : String) :
    (parseModelResponse r).topic ≠ ""
    ∧ (parseModelResponse r).topic.data.all
        (fun c => c.toNat = 95 || (65 ≤ c.toNat && c.toNat ≤ 90)) = true
    ∧ (findCategoryMatch r.data = none → (parseModelResponse r).topic = "OTHER") := by
  cases hf : findCategoryMatch r.data with
  | none =>
    have hO : (parseModelResponse r).topic = "OTHER" := by
      simp [parseModelResponse, hf]
    rw [hO]
    exact ⟨by decide, by decide, fun _ => rfl⟩
  | some tok =>
    obtain ⟨hne, hall⟩ := findCategoryMatch_some_spec r.data tok hf
    have htop : (parseModelResponse r).topic = String.mk (jsToUpper (jsTrim tok)) := by
      simp [parseModelResponse, hf]
    rw [htop, jsTrim_eq_self_of_catChars tok hall]
    refine ⟨?_, ?_, ?_⟩
    · intro hcontra
      have hdata : jsToUpper tok = [] := congrArg String.data hcontra
      exact hne (List.map_eq_nil_iff.mp hdata)
    · rw [List.all_eq_true]
      intro c hc
      simp only [String.data] at hc
      simp only [jsToUpper, List.mem_map] at hc
      obtain ⟨c0, hc0, rfl⟩ := hc
      exact jsToUpperChar_mem_range c0 (hall c0 hc0)
    · intro h
      exact absurd h (by simp)

/-- Witness for the amended C1 at a concrete marker-free response. -/
theorem claim1_amended_witness :
    (parseModelResponse "no markers here").topic ≠ ""
    ∧ (parseModelResponse "no markers here").topic.data.all
        (fun c => c.toNat = 95 || (65 ≤ c.toNat && c.toNat ≤ 90)) = true
    ∧ (findCategoryMatch "no markers here".data = none
        → (parseModelResponse "no markers here").topic = "OTHER") :=
  claim1_amended "no markers here"

/-! ## Claim C2 -/

/-- C2: content whose token count is at most the 15,000-token chunk budget
is summarized by the single-pass path, with no chunking. -/
theorem claim2_single_pass (encode : String → List Nat) (decode : List Nat → String)
    (model : String → String → String) (content : String)
    (h : (encode content).length ≤ maxTokensPerChunk) :
    summarizeNewsletter encode decode model content = processSingleChunk model content := by
  simp only [summarizeNewsletter]
  rw [if_pos h]

/-- Witness for C2 at a concrete tokenizer, model and content. -/
theorem claim2_single_pass_witness :
    ((fun (_ : String) => ([] : List Nat)) "newsletter").length ≤ maxTokensPerChunk
    ∧ summarizeNewsletter (fun _ => []) (fun _ => "") (fun _ content => content) "newsletter"
        = processSingleChunk (fun _ content => content) "newsletter" :=
  ⟨by decide, claim2_single_pass _ _ _ _ (by decide)⟩

/-! ## Claim C4 -/

/-- C4: a model response containing neither a `CATEGORY:` marker nor a
`SUMMARY:` marker (in any letter case) parses to the fallback topic `OTHER`
with the entire raw response as summary. -/
theorem claim4_malformed_fallback (model : String → String → String)
    (content : String)
    (hc : containsCI catMarker (model singleChunkSystemPrompt content).data = false)
    (hs : containsCI sumMarker (model singleChunkSystemPrompt content).data = false) :
    processSingleChunk model content
      = ⟨"OTHER", model singleChunkSystemPrompt content⟩ := by
  unfold processSingleChunk parseModelResponse
  rw [findCategoryMatch_eq_none_of_not_containsCI _ hc,
    findSummaryMatch_eq_none_of_not_containsCI _ hs]

/-- Witness for C4: a marker-free model response. -/
theorem claim4_malformed_fallback_witness :
    containsCI catMarker
        ((fun (_ _ : String) => "hello world") singleChunkSystemPrompt "c").data = false
    ∧ containsCI sumMarker
        ((fun (_ _ : String) => "hello world") singleChunkSystemPrompt "c").data = false
    ∧ processSingleChunk (fun _ _ => "hello world") "c" = ⟨"OTHER", "hello world"⟩ :=
  ⟨by decide, by decide, claim4_malformed_fallback _ _ (by decide) (by decide)⟩

/-! ## Claim C3 -/

/-- Closed form of the chunk loop after the first chunk: the topic argument
is threaded through unchanged, and every continuation response is appended
to the running summary joined by a newline. -/
lemma summarizeLoop_false_eq (decode : List Nat → String)
    (model : String → String → String) :
    ∀ (n : Nat) (remaining : List Nat), remaining.length ≤ n → ∀ (topic s : String),
      summarizeLoop decode model remaining false topic s
        = (topic, (continuationResponses decode model remaining s).foldl
            (fun acc r => acc ++ "\n" ++ r) s) := by
  intro n
  induction n with
  | zero =>
    intro remaining hlen topic s
    have hnil : remaining = [] := List.eq_nil_of_length_eq_zero (Nat.le_zero.mp hlen)
    subst hnil
    rw [summarizeLoop, continuationResponses]
    simp
  | succ n ih =>
    intro remaining hlen topic s
    by_cases hr : remaining = []
    · subst hr
      rw [summarizeLoop, continuationResponses]
      simp
    · rw [summarizeLoop, continuationResponses]
      rw [if_neg hr, if_neg hr]
      simp only [Bool.false_eq_true, if_false, List.foldl_cons]
      have hstep : (remaining.drop maxTokensPerChunk).length ≤ n := by
        rw [List.length_drop]
        have hpos := List.length_pos.mpr hr
        have hm : 1 ≤ maxTokensPerChunk := by decide
        omega
      rw [ih _ hstep]

/-- C3: when the content needs chunking (more than one chunk), the topic of
the result is the category parsed from the response to the first chunk
alone — it is never re-derived from a later chunk — and each subsequent
response is appended to the running summary joined by a newline. -/
theorem claim3_chunked_merge (encode : String → List Nat)
    (decode : List Nat → String) (model : String → String → String)
    (content : String) (h : maxTokensPerChunk < (encode content).length) :
    summarizeNewsletter encode decode model content
      = ⟨(parseModelResponse (model firstChunkSystemPrompt
            (decode ((encode content).take maxTokensPerChunk)))).topic,
         (continuationResponses decode model ((encode content).drop maxTokensPerChunk)
             (parseModelResponse (model firstChunkSystemPrompt
               (decode ((encode content).take maxTokensPerChunk)))).summary).foldl
           (fun acc r => acc ++ "\n" ++ r)
           (parseModelResponse (model firstChunkSystemPrompt
             (decode ((encode content).take maxTokensPerChunk)))).summary⟩ := by
  have hne : encode content ≠ [] := by
    intro hnil
    rw [hnil] at h
    simp [maxTokensPerChunk] at h
  simp only [summarizeNewsletter]
  rw [if_neg (by omega)]
  rw [summarizeLoop]
  rw [if_neg hne]
  simp only [if_true]
  rw [summarizeLoop_false_eq decode model ((encode content).drop maxTokensPerChunk).length
    ((encode content).drop maxTokensPerChunk) (Nat.le_refl _)]

/-- Witness for C3: a tokenizer producing 15,001 tokens forces exactly two
chunks. -/
theorem claim3_chunked_merge_witness :
    maxTokensPerChunk
        < ((fun (_ : String) => List.replicate 15001 0) "body").length
    ∧ summarizeNewsletter (fun _ => List.replicate 15001 0) (fun _ => "chunk")
          (fun _ _ => "CATEGORY: TECH_NEWS\nSUMMARY: ok") "body"
        = ⟨(parseModelResponse ((fun (_ _ : String) => "CATEGORY: TECH_NEWS\nSUMMARY: ok")
              firstChunkSystemPrompt ((fun (_ : List Nat) => "chunk")
                (((fun (_ : String) => List.replicate 15001 0) "body").take
                  maxTokensPerChunk)))).topic,
           (continuationResponses (fun _ => "chunk")
               (fun _ _ => "CATEGORY: TECH_NEWS\nSUMMARY: ok")
               (((fun (_ : String) => List.replicate 15001 0) "body").drop maxTokensPerChunk)
               (parseModelResponse ((fun (_ _ : String) => "CATEGORY: TECH_NEWS\nSUMMARY: ok")
                 firstChunkSystemPrompt ((fun (_ : List Nat) => "chunk")
                   (((fun (_ : String) => List.replicate 15001 0) "body").take
                     maxTokensPerChunk)))).summary).foldl
             (fun acc r => acc ++ "\n" ++ r)
             (parseModelResponse ((fun (_ _ : String) => "CATEGORY: TECH_NEWS\nSUMMARY: ok")
               firstChunkSystemPrompt ((fun (_ : List Nat) => "chunk")
                 (((fun (_ : String) => List.replicate 15001 0) "body").take
                   maxTokensPerChunk)))).summary⟩ :=
  ⟨by simp only [List.length_replicate, maxTokensPerChunk]; omega,
   claim3_chunked_merge _ _ _ _ (by simp only [List.length_replicate, maxTokensPerChunk]; omega)⟩

/-! ## Claim C5 -/

/-- The known categories are pairwise distinct. -/
lemma TOPIC_CATEGORIES_nodup : TOPIC_CATEGORIES.Nodup := by decide

/-- Pushing into a bucket list indexed by distinct keys updates exactly the
addressed key. -/
lemma bucketPush_map (cats : List String) (f : String → List SummaryItem)
    (t0 : String) (item : SummaryItem) (hmem : t0 ∈ cats) (hnd : cats.Nodup) :
    bucketPush (cats.map fun t => (t, f t)) t0 item
      = some (cats.map fun t => (t, if t = t0 then f t ++ [item] else f t)) := by
  induction cats with
  | nil => cases hmem
  | cons c cats ih =>
    rw [List.map_cons, List.map_cons, bucketPush]
    by_cases hc : c = t0
    · subst hc
      rw [if_pos rfl, if_pos rfl]
      have hrest : cats.map (fun t => (t, if t = c then f t ++ [item] else f t))
          = cats.map (fun t => (t, f t)) := by
        apply List.map_congr_left
        intro t ht
        have : t ≠ c := fun hteq => (List.nodup_cons.mp hnd).1 (hteq ▸ ht)
        rw [if_neg this]
      rw [hrest]
    · have hmem' : t0 ∈ cats := by
        cases List.mem_cons.mp hmem with
        | inl h0 => exact absurd h0.symm hc
        | inr h0 => exact h0
      rw [if_neg hc, if_neg hc, ih hmem' (List.nodup_cons.mp hnd).2]
      rfl

/-- Closed form of the aggregation loop over buckets indexed by the known
categories: each key ends up with its existing items followed by the items
of the inputs classified to it, in input order. -/
lemma aggregateFrom_map (inputs : List (EmailRecord × CategoryResult)) :
    ∀ f : String → List SummaryItem,
    (∀ p ∈ inputs, p.2.topic ∈ TOPIC_CATEGORIES) →
    aggregateFrom (TOPIC_CATEGORIES.map fun t => (t, f t)) inputs
      = some (TOPIC_CATEGORIES.map fun t =>
          (t, f t ++ (inputs.filter (fun p => p.2.topic = t)).map
            (fun p => itemOf p.1 p.2))) := by
  induction inputs with
  | nil =>
    intro f _
    rw [aggregateFrom]
    congr 1
    apply List.map_congr_left
    intro t _
    simp
  | cons p rest ih =>
    intro f h
    obtain ⟨e, r⟩ := p
    rw [aggregateFrom]
    rw [bucketPush_map TOPIC_CATEGORIES f r.topic (itemOf e r)
      (h (e, r) (List.mem_cons_self _ _)) TOPIC_CATEGORIES_nodup]
    show aggregateFrom (TOPIC_CATEGORIES.map fun t =>
      (t, if t = r.topic then f t ++ [itemOf e r] else f t)) rest = _
    rw [ih (fun t => if t = r.topic then f t ++ [itemOf e r] else f t)
      (fun q hq => h q (List.mem_cons_of_mem _ hq))]
    congr 1
    apply List.map_congr_left
    intro t _
    rw [List.filter_cons]
    by_cases hteq : r.topic = t
    · subst hteq
      simp [List.append_assoc]
    · have h2 : ¬ t = r.topic := fun h0 => hteq h0.symm
      simp only [decide_eq_true_eq]
      rw [if_neg h2, if_neg hteq]

/-- C5: when the category of every input is a known tag (as the
`CategoryResult` data model of the spec requires), aggregation succeeds and yields a
bucket list keyed by every known category in order, where the bucket of a
tag holds exactly the items of the inputs classified to that tag, in input
order. -/
theorem claim5_aggregate_buckets (inputs : List (EmailRecord × CategoryResult))
    (h : inputs.all (fun p => decide (p.2.topic ∈ TOPIC_CATEGORIES)) = true) :
    aggregate inputs
      = some (TOPIC_CATEGORIES.map fun t =>
          (t, (inputs.filter (fun p => p.2.topic = t)).map
            (fun p => itemOf p.1 p.2))) := by
  have hmem : ∀ p ∈ inputs, p.2.topic ∈ TOPIC_CATEGORIES := by
    intro p hp
    exact of_decide_eq_true (List.all_eq_true.mp h p hp)
  have hmain := aggregateFrom_map inputs (fun _ => []) hmem
  simpa [aggregate, initBuckets] using hmain

/-- Witness for C5: three emails, two of them sharing a category, checking
counts and input-order preservation inside a bucket. -/
theorem claim5_aggregate_buckets_witness :
    ([(⟨"i1", "s1", "a1", "d1", "b1"⟩, ⟨"TECH_NEWS", "sum1"⟩),
      (⟨"i2", "s2", "a2", "d2", "b2"⟩, ⟨"OTHER", "sum2"⟩),
      (⟨"i3", "s3", "a3", "d3", "b3"⟩, ⟨"TECH_NEWS", "sum3"⟩)]
        : List (EmailRecord × CategoryResult)).all
      (fun p => decide (p.2.topic ∈ TOPIC_CATEGORIES)) = true
    ∧ aggregate
        [(⟨"i1", "s1", "a1", "d1", "b1"⟩, ⟨"TECH_NEWS", "sum1"⟩),
         (⟨"i2", "s2", "a2", "d2", "b2"⟩, ⟨"OTHER", "sum2"⟩),
         (⟨"i3", "s3", "a3", "d3", "b3"⟩, ⟨"TECH_NEWS", "sum3"⟩)]
      = some (TOPIC_CATEGORIES.map fun t =>
          (t, (([(⟨"i1", "s1", "a1", "d1", "b1"⟩, ⟨"TECH_NEWS", "sum1"⟩),
                 (⟨"i2", "s2", "a2", "d2", "b2"⟩, ⟨"OTHER", "sum2"⟩),
                 (⟨"i3", "s3", "a3", "d3", "b3"⟩, ⟨"TECH_NEWS", "sum3"⟩)]
                   : List (EmailRecord × CategoryResult)).filter
                (fun p => p.2.topic = t)).map (fun p => itemOf p.1 p.2))) :=
  ⟨by decide, claim5_aggregate_buckets _ (by decide)⟩

/-! ## Claim C6 -/

/-- C6: on the scenario bucket with one tech-news item from sender `A` and
summary `"X happened. Y followed."` and every other bucket empty, the
composed script is exactly the fixed opening, one host transition line for
tech news only, two guest lines for the item split at the sentence
boundary with the host follow-up prompt between them, and the fixed
closing — in particular no transition line for the empty security bucket. -/
theorem claim6_scenario_script (timeNow subject date : String) :
    createSpeechScript timeNow
      [("TECH_NEWS", [⟨subject, "A", date, "X happened. Y followed."⟩]),
       ("BUSINESS", []), ("SECURITY", []), ("PRODUCT_UPDATES", []),
       ("INDUSTRY_NEWS", []), ("EDUCATIONAL", []), ("OTHER", [])]
      = [⟨"host", "Welcome to your daily newsletter roundup! It\x27s " ++ timeNow
            ++ ", and I\x27m here with our expert analyst to break down today\x27s key stories."⟩,
         ⟨"guest", "Thanks for having me! I\x27ve reviewed all the newsletters, and we\x27ve got some interesting developments to discuss."⟩,
         ⟨"host", "Let\x27s dive into tech news. What are the key updates in this area?"⟩,
         ⟨"guest", "From A, we have X happened."⟩,
         ⟨"host", "That\x27s interesting! What else did they mention?"⟩,
         ⟨"guest", "Y followed."⟩,
         ⟨"host", "That wraps up our newsletter summary for today. Any final thoughts?"⟩,
         ⟨"guest", "Thanks for breaking this down with me. Remember to check the email summary for more details on any stories that caught your interest."⟩,
         ⟨"host", "Thanks for listening, and we\x27ll catch you in the next summary!"⟩] := by
  rfl

/-- Witness for C6 at a concrete time, subject and date. -/
theorem claim6_scenario_script_witness :
    createSpeechScript "9:15 AM"
      [("TECH_NEWS", [⟨"Subject", "A", "Date", "X happened. Y followed."⟩]),
       ("BUSINESS", []), ("SECURITY", []), ("PRODUCT_UPDATES", []),
       ("INDUSTRY_NEWS", []), ("EDUCATIONAL", []), ("OTHER", [])]
      = [⟨"host", "Welcome to your daily newsletter roundup! It\x27s " ++ "9:15 AM"
            ++ ", and I\x27m here with our expert analyst to break down today\x27s key stories."⟩,
         ⟨"guest", "Thanks for having me! I\x27ve reviewed all the newsletters, and we\x27ve got some interesting developments to discuss."⟩,
         ⟨"host", "Let\x27s dive into tech news. What are the key updates in this area?"⟩,
         ⟨"guest", "From A, we have X happened."⟩,
         ⟨"host", "That\x27s interesting! What else did they mention?"⟩,
         ⟨"guest", "Y followed."⟩,
         ⟨"host", "That wraps up our newsletter summary for today. Any final thoughts?"⟩,
         ⟨"guest", "Thanks for breaking this down with me. Remember to check the email summary for more details on any stories that caught your interest."⟩,
         ⟨"host", "Thanks for listening, and we\x27ll catch you in the next summary!"⟩] :=
  claim6_scenario_script "9:15 AM" "Subject" "Date"

/-! ## Claim C9 -/

/-- Scan for a match of `/(?<=\.)\s+/` given whether the previous character
was a period: true exactly when some whitespace character follows a
period somewhere in the text. -/
def hasSentenceBreakFrom (prevDot : Bool) : List Char → Bool
  | [] => false
  | c :: cs => (prevDot && isSpace c) || hasSentenceBreakFrom (c == '.') cs

/-- A summary without a sentence boundary is not split. -/
lemma splitGo_eq_of_no_break :
    ∀ (cs : List Char) (prevDot : Bool) (acc : List Char),
      hasSentenceBreakFrom prevDot cs = false →
      splitGo false prevDot acc cs = [acc.reverse ++ cs] := by
  intro cs
  induction cs with
  | nil =>
    intro prevDot acc _
    simp [splitGo]
  | cons c cs ih =>
    intro prevDot acc h
    rw [hasSentenceBreakFrom] at h
    obtain ⟨h1, h2⟩ := Bool.or_eq_false_iff.mp h
    rw [splitGo]
    simp only [Bool.false_eq_true, if_false]
    rw [h1]
    simp only [Bool.false_eq_true, if_false]
    rw [ih _ _ h2]
    simp

/-- Helper: rebuilding a string from its character data is the identity. -/
lemma string_mk_data (s : String) : String.mk s.data = s := by
  cases s
  rfl

/-- C9: an item whose summary has no period-followed-by-whitespace boundary
(the empty summary included) produces exactly one guest line carrying the
sender and the whole summary, and no host follow-up prompt; the function is
total, so no input makes it throw. -/
theorem claim9_unsplit_summary (item : SummaryItem) (isLast : Bool)
    (h : hasSentenceBreakFrom false item.summary.data = false) :
    itemLines item isLast
      = ⟨"guest", "From " ++ item.sender ++ ", we have " ++ item.summary⟩
        :: (if isLast then [] else
            [⟨"host", "What other updates do we have in this area?"⟩]) := by
  unfold itemLines jsSplitDot
  rw [splitGo_eq_of_no_break item.summary.data false [] h]
  simp [string_mk_data]

/-- Witness for C9: a summary with no sentence boundary. -/
theorem claim9_unsplit_summary_witness :
    hasSentenceBreakFrom false
        (SummaryItem.summary ⟨"s", "A", "d", "hello world"⟩).data = false
    ∧ itemLines ⟨"s", "A", "d", "hello world"⟩ true
        = ⟨"guest", "From A, we have hello world"⟩
          :: (if true then [] else
              [⟨"host", "What other updates do we have in this area?"⟩]) :=
  ⟨by decide, claim9_unsplit_summary ⟨"s", "A", "d", "hello world"⟩ true (by decide)⟩

/-! ## Claim C10 -/

/-- C10: when every category bucket is empty the script is exactly the five
fixed lines — host opening, guest acknowledgment, host closing question,
guest closing remark, host sign-off — with no topic transitions. -/
theorem claim10_all_empty_script (timeNow : String) (b : Buckets)
    (h : b.all (fun p => p.2.isEmpty) = true) :
    createSpeechScript timeNow b
      = [⟨"host", "Welcome to your daily newsletter roundup! It\x27s " ++ timeNow
            ++ ", and I\x27m here with our expert analyst to break down today\x27s key stories."⟩,
         ⟨"guest", "Thanks for having me! I\x27ve reviewed all the newsletters, and we\x27ve got some interesting developments to discuss."⟩,
         ⟨"host", "That wraps up our newsletter summary for today. Any final thoughts?"⟩,
         ⟨"guest", "Thanks for breaking this down with me. Remember to check the email summary for more details on any stories that caught your interest."⟩,
         ⟨"host", "Thanks for listening, and we\x27ll catch you in the next summary!"⟩] := by
  have hfil : b.filter (fun p => p.2.length > 0) = [] := by
    rw [List.filter_eq_nil_iff]
    intro p hp
    have hemp := List.all_eq_true.mp h p hp
    rw [List.isEmpty_iff] at hemp
    simp [hemp]
  simp [createSpeechScript, hfil]

/-- Witness for C10: the freshly initialized buckets are all empty. -/
theorem claim10_all_empty_script_witness :
    initBuckets.all (fun p => p.2.isEmpty) = true
    ∧ createSpeechScript "9:00 AM" initBuckets
      = [⟨"host", "Welcome to your daily newsletter roundup! It\x27s " ++ "9:00 AM"
            ++ ", and I\x27m here with our expert analyst to break down today\x27s key stories."⟩,
         ⟨"guest", "Thanks for having me! I\x27ve reviewed all the newsletters, and we\x27ve got some interesting developments to discuss."⟩,
         ⟨"host", "That wraps up our newsletter summary for today. Any final thoughts?"⟩,
         ⟨"guest", "Thanks for breaking this down with me. Remember to check the email summary for more details on any stories that caught your interest."⟩,
         ⟨"host", "Thanks for listening, and we\x27ll catch you in the next summary!"⟩] :=
  ⟨by decide, claim10_all_empty_script "9:00 AM" initBuckets (by decide)⟩

/-! ## Claim C7 -/

/-- C7: `generateAudioSummary` synthesizes exactly one audio segment per
script line, and the ordered list of segment file paths handed to the
concatenation step is `segment_0, segment_1, …` matching the script line
order position by position. -/
theorem claim7_one_segment_per_line (tts : TTSRequest → String)
    (mux : Except String Unit) (unlinkOk : String → Bool)
    (audioDir finalAudioPath timeNow : String) (summariesByTopic : Buckets) :
    (generateAudioSummary tts mux unlinkOk audioDir finalAudioPath timeNow
        summariesByTopic).2.length
      = (createSpeechScript timeNow summariesByTopic).length
    ∧ (generateAudioSummary tts mux unlinkOk audioDir finalAudioPath timeNow
        summariesByTopic).2.map Prod.fst
      = (List.range (createSpeechScript timeNow summariesByTopic).length).map
          (segmentPath audioDir) := by
  constructor
  · simp [generateAudioSummary, synthesizeSegments]
  · simp only [generateAudioSummary, synthesizeSegments, List.map_map]
    rw [List.range_eq_range']
    rw [show (0 : Nat) = 0 from rfl]
    rw [← List.enumFrom_map_fst 0 (createSpeechScript timeNow summariesByTopic)]
    rw [List.map_map]
    rfl

/-- Witness for C7 at a concrete TTS stub and the initial buckets. -/
theorem claim7_one_segment_per_line_witness :
    (generateAudioSummary (fun _ => "bytes") (.ok ()) (fun _ => true) "audio"
        "audio/final.mp3" "9:15 AM" initBuckets).2.length
      = (createSpeechScript "9:15 AM" initBuckets).length
    ∧ (generateAudioSummary (fun _ => "bytes") (.ok ()) (fun _ => true) "audio"
        "audio/final.mp3" "9:15 AM" initBuckets).2.map Prod.fst
      = (List.range (createSpeechScript "9:15 AM" initBuckets).length).map
          (segmentPath "audio") :=
  claim7_one_segment_per_line (fun _ => "bytes") (.ok ()) (fun _ => true) "audio"
    "audio/final.mp3" "9:15 AM" initBuckets

/-! ## Claim C8 -/

/-- The cleanup loop attempts every path: it deletes exactly the paths the
filesystem lets it unlink and warns about exactly the others. -/
lemma cleanupLoop_spec (unlinkOk : String → Bool) (paths : List String) :
    cleanupLoop unlinkOk paths
      = (paths.filter (fun p => unlinkOk p),
         paths.filter (fun p => !unlinkOk p)) := by
  induction paths with
  | nil => rfl
  | cons p ps ih =>
    rw [cleanupLoop, ih]
    by_cases hp : unlinkOk p = true
    · simp [List.filter_cons, hp]
    · simp only [Bool.not_eq_true] at hp
      simp [List.filter_cons, hp]

/-- C8: on muxing success `generateAudioSummary` returns the final audio
path and attempts to delete every temporary segment file — the files whose
deletion fails are only warned about and the run still succeeds; on muxing
failure the same error propagates out and no segment file is deleted. -/
theorem claim8_cleanup_on_success_only (tts : TTSRequest → String)
    (unlinkOk : String → Bool) (audioDir finalAudioPath timeNow e : String)
    (summariesByTopic : Buckets) :
    ((generateAudioSummary tts (.ok ()) unlinkOk audioDir finalAudioPath timeNow
          summariesByTopic).1.result = .ok finalAudioPath
      ∧ (generateAudioSummary tts (.ok ()) unlinkOk audioDir finalAudioPath timeNow
          summariesByTopic).1.deletedFiles
        = ((generateAudioSummary tts (.ok ()) unlinkOk audioDir finalAudioPath timeNow
            summariesByTopic).2.map Prod.fst).filter (fun p => unlinkOk p)
      ∧ (generateAudioSummary tts (.ok ()) unlinkOk audioDir finalAudioPath timeNow
          summariesByTopic).1.warnings
        = ((generateAudioSummary tts (.ok ()) unlinkOk audioDir finalAudioPath timeNow
            summariesByTopic).2.map Prod.fst).filter (fun p => !unlinkOk p))
    ∧ ((generateAudioSummary tts (.error e) unlinkOk audioDir finalAudioPath timeNow
          summariesByTopic).1.result = .error e
      ∧ (generateAudioSummary tts (.error e) unlinkOk audioDir finalAudioPath timeNow
          summariesByTopic).1.deletedFiles = []) := by
  refine ⟨⟨rfl, ?_, ?_⟩, rfl, rfl⟩
  · simp [generateAudioSummary, mergeSegments, cleanupLoop_spec]
  · simp [generateAudioSummary, mergeSegments, cleanupLoop_spec]

/-- Witness for C8 at a concrete filesystem where one deletion fails. -/
theorem claim8_cleanup_on_success_only_witness :
    ((generateAudioSummary (fun _ => "bytes") (.ok ())
          (fun p => p ≠ "audio/segment_0.mp3") "audio" "audio/final.mp3" "9:15 AM"
          initBuckets).1.result = .ok "audio/final.mp3"
      ∧ (generateAudioSummary (fun _ => "bytes") (.ok ())
          (fun p => p ≠ "audio/segment_0.mp3") "audio" "audio/final.mp3" "9:15 AM"
          initBuckets).1.deletedFiles
        = ((generateAudioSummary (fun _ => "bytes") (.ok ())
            (fun p => p ≠ "audio/segment_0.mp3") "audio" "audio/final.mp3" "9:15 AM"
            initBuckets).2.map Prod.fst).filter
            (fun p => (fun p => p ≠ "audio/segment_0.mp3") p)
      ∧ (generateAudioSummary (fun _ => "bytes") (.ok ())
          (fun p => p ≠ "audio/segment_0.mp3") "audio" "audio/final.mp3" "9:15 AM"
          initBuckets).1.warnings
        = ((generateAudioSummary (fun _ => "bytes") (.ok ())
            (fun p => p ≠ "audio/segment_0.mp3") "audio" "audio/final.mp3" "9:15 AM"
            initBuckets).2.map Prod.fst).filter
            (fun p => !(fun p => p ≠ "audio/segment_0.mp3") p))
    ∧ ((generateAudioSummary (fun _ => "bytes") (.error "ffmpeg exited with code 1")
          (fun p => p ≠ "audio/segment_0.mp3") "audio" "audio/final.mp3" "9:15 AM"
          initBuckets).1.result = .error "ffmpeg exited with code 1"
      ∧ (generateAudioSummary (fun _ => "bytes") (.error "ffmpeg exited with code 1")
          (fun p => p ≠ "audio/segment_0.mp3") "audio" "audio/final.mp3" "9:15 AM"
          initBuckets).1.deletedFiles = []) :=
  claim8_cleanup_on_success_only (fun _ => "bytes")
    (fun p => p ≠ "audio/segment_0.mp3") "audio" "audio/final.mp3" "9:15 AM"
    "ffmpeg exited with code 1" initBuckets

end NewsletterNarrator
